import Mathlib

/-!
Verification development for the EmpathAI voice-chat backend.

Strings are modelled as `List Char`.  The sentence segmenter of
`audio_processor.py` (`AudioProcessor.process_stream`) buffers incoming
LLM text deltas and splits the buffer with the Python regex
`re.split(r"(?<=[.!?])\s+", buffer)`: a split point is a maximal run of
whitespace whose immediately preceding character is one of `.`, `!`, `?`;
the whitespace run itself is consumed by the split and does not appear in
any fragment.  `segAux` below is a direct one-pass model of that split
which additionally records, for every complete fragment, the whitespace
separator that followed it (so that losslessness questions can be settled
exactly).
-/

/-- Python `\s` on the ASCII range: space, tab, newline, carriage return,
vertical tab (11), form feed (12). -/
def isWs (c : Char) : Bool :=
  c = ' ' || c = '\t' || c = '\n' || c = '\r' || c = Char.ofNat 11 || c = Char.ofNat 12

/-- The sentence-terminal punctuation of the regex lookbehind `(?<=[.!?])`. -/
def isSentencePunct (c : Char) : Bool :=
  c = '.' || c = '!' || c = '?'

/-- Head test used for the lookbehind: the previous character of the scan is
the head of the reversed current fragment. -/
def headIsPunct : List Char → Bool
  | [] => false
  | c :: _ => isSentencePunct c

/-- Python `str.strip()`: remove leading and trailing whitespace. -/
def pyStrip (l : List Char) : List Char :=
  ((l.dropWhile isWs).reverse.dropWhile isWs).reverse

/-- One-pass model of `re.split(r"(?<=[.!?])\s+", s)`.
`pairs` accumulates the finished (fragment, separator) pairs in reverse,
`frag` is the current fragment in reverse, `sep` is the whitespace run
currently being consumed in reverse (`[]` when not inside a separator). -/
def segAux : List (List Char × List Char) → List Char → List Char → List Char →
    List (List Char × List Char) × List Char
  | pairs, frag, [], [] => (pairs.reverse, frag.reverse)
  | pairs, frag, s :: sep, [] =>
      (((frag.reverse, (s :: sep).reverse) :: pairs).reverse, [])
  | pairs, frag, [], c :: cs =>
      if isWs c && headIsPunct frag then segAux pairs frag [c] cs
      else segAux pairs (c :: frag) [] cs
  | pairs, frag, s :: sep, c :: cs =>
      if isWs c then segAux pairs frag (c :: s :: sep) cs
      else segAux ((frag.reverse, (s :: sep).reverse) :: pairs) [c] [] cs

/-- `splitSent s` returns the complete fragments of the regex split, each
paired with the whitespace separator that the split consumed after it,
together with the last fragment (Python `sentences[-1]`, possibly empty). -/
def splitSent (s : List Char) : List (List Char × List Char) × List Char :=
  segAux [] [] [] s

/-- One `feed` step of the segmenter, with separators retained
(`AudioProcessor.process_stream` loop body, lines 33-42): the delta is
appended to `sentence_buffer` and the buffer is split; the last fragment is
the new buffer. -/
def feedFull (buf chunk : List Char) : List (List Char × List Char) × List Char :=
  splitSent (buf ++ chunk)

/-- One `feed` step as the code emits it (lines 36-46 of
`audio_processor.py`): all but the last split fragment are the complete
sentence units, of which only those with non-blank `strip()` are passed on
to synthesis; the last fragment is retained as the new buffer.  When the
split finds no boundary (`len(sentences) <= 1`) nothing is emitted and the
buffer keeps growing. -/
def feed (buf chunk : List Char) : List (List Char) × List Char :=
  let r := splitSent (buf ++ chunk)
  ((r.1.map Prod.fst).filter (fun f => !(pyStrip f).isEmpty), r.2)

/-- Folding `feed` over the stream of LLM deltas, skipping falsy (empty)
deltas exactly as `for chunk in ...: if chunk and self.is_processing:` does. -/
def feedMany (deltas : List (List Char)) : List (List Char) × List Char :=
  deltas.foldl
    (fun acc d =>
      if d.isEmpty then acc
      else
        let r := feed acc.2 d
        (acc.1 ++ r.1, r.2))
    ([], [])

/-- Whole-run segmentation of `AudioProcessor.process_stream` (no
cancellation, no synthesis failure): the deltas are fed in order and at
stream end the retained buffer, if non-empty, is emitted as a final unit
(lines 51-53).  The second component is the text retained but never
emitted, which is empty once the final flush has run. -/
def processStream (deltas : List (List Char)) : List (List Char) × List Char :=
  let r := feedMany deltas
  if r.2.isEmpty then r else (r.1 ++ [r.2], [])

/-- Separator-preserving variant of the whole-run fold, used to account for
every character of the input. -/
def processStreamFull (deltas : List (List Char)) : List (List Char × List Char) × List Char :=
  deltas.foldl
    (fun acc d =>
      if d.isEmpty then acc
      else
        let r := feedFull acc.2 d
        (acc.1 ++ r.1, r.2))
    ([], [])

/-- Apostrophe character, used to spell out concrete test inputs. -/
def apos : Char := Char.ofNat 39

/-- Concrete input of C6: `"Hello there. How are you? I'm fine!"`. -/
def helloFine : List Char :=
  "Hello there. How are you? I".toList ++ apos :: "m fine!".toList

/-- Third expected unit of C6: `"I'm fine!"`. -/
def imFine : List Char := "I".toList ++ apos :: "m fine!".toList

/-- Step function of `feedMany`, named so the fold can be reasoned about. -/
def feedStep (acc : List (List Char) × List Char) (d : List Char) :
    List (List Char) × List Char :=
  if d.isEmpty then acc
  else
    let r := feed acc.2 d
    (acc.1 ++ r.1, r.2)

/-- Step function of `processStreamFull`. -/
def fullStep (acc : List (List Char × List Char) × List Char) (d : List Char) :
    List (List Char × List Char) × List Char :=
  if d.isEmpty then acc
  else
    let r := feedFull acc.2 d
    (acc.1 ++ r.1, r.2)

/-- Concrete input used to refute plain losslessness. -/
def helloHow : List Char := "Hello there. How are you?".toList

/-!
Per-unit synthesis.  `StreamingTTSManager.process_chunk`
(`audio_utils.py` lines 174-206) returns `None` for a blank chunk, the
waveform on success, and raises `RuntimeError` on backend failure; one
attempt is therefore modelled as a function into `Except ε (Option α)`.
-/

/-- One message sent back per text chunk by `api_v2.process_text_message`
(lines 185-233): the synthesized audio of the chunk, or the
`"Failed to generate audio for chunk"` report when `text_to_speech`
produced no file, or the `"TTS error on chunk"` report from the per-chunk
`except` handler.  The chunk index and end marker are not modelled. -/
inductive WsMsg (ε α : Type) where
  | audioChunk (text : List Char) (a : α)
  | genFailed (text : List Char)
  | ttsFailed (e : ε)
deriving DecidableEq

/-- The per-chunk loop of `api_v2.process_text_message` (lines 185-233):
blank chunks are skipped (`if not chunk.strip(): continue`), each chunk's
synthesis runs inside its own try/except, and the loop proceeds to the
next chunk regardless of the outcome. -/
def processTextChunks {ε α : Type} (synth : List Char → Except ε (Option α)) :
    List (List Char) → List (WsMsg ε α)
  | [] => []
  | u :: rest =>
    if (pyStrip u).isEmpty then processTextChunks synth rest
    else
      (match synth u with
        | Except.ok (some a) => WsMsg.audioChunk u a
        | Except.ok none => WsMsg.genFailed u
        | Except.error e => WsMsg.ttsFailed e) :: processTextChunks synth rest

/-- The synthesis loop of `AudioProcessor.process_stream`
(`audio_processor.py` lines 27-60) at sentence-unit granularity:
`_process_sentence` appends the chunk when synthesis returns audio, and
the single `try/except` wraps the WHOLE loop, so the first raised
synthesis error ends the processing of all remaining units (the chunks
accumulated so far and the error are what remain). -/
def runSentences {ε α : Type} (synth : List Char → Except ε (Option α)) :
    List (List Char) → List α × Option ε
  | [] => ([], none)
  | u :: rest =>
    match synth u with
    | Except.ok (some a) =>
        let r := runSentences synth rest
        (a :: r.1, r.2)
    | Except.ok none => runSentences synth rest
    | Except.error e => ([], some e)

/-- Concrete synthesizer for the C4 counterexample: fails on `"B."` and
succeeds on every other unit, returning its length as the waveform. -/
def synthBad (u : List Char) : Except Nat (Option Nat) :=
  if u = "B.".toList then Except.error 7 else Except.ok (some u.length)

/-!
The pending-chunk queue of one session.  The producer appends
(`session.audio_chunks.append(chunk_bytes)`, `main.py` line 391); the
reader drains (`get_audio_chunks` lines 453-457:
`chunks = session.audio_chunks.copy(); if chunks: session.audio_chunks = []`).
An interleaving of the two is a list of operations executed atomically in
order, which is what the endpoint claims assume (single reader, atomic
queue swap).
-/

/-- A producer/reader step on one session's pending-chunk queue. -/
inductive QOp (α : Type) where
  | enqueue (c : α)
  | drain
deriving DecidableEq

/-- Execute one step on (pending queue, list of batches returned by the
drain calls so far). -/
def qstep {α : Type} : List α × List (List α) → QOp α → List α × List (List α)
  | (q, outs), QOp.enqueue c => (q ++ [c], outs)
  | (q, outs), QOp.drain => (if q.isEmpty then q else [], outs ++ [q])

/-- Run an interleaving from the empty queue. -/
def runQueue {α : Type} (ops : List (QOp α)) : List α × List (List α) :=
  ops.foldl qstep ([], [])

/-- The chunks appended by an interleaving, in order. -/
def enqueued {α : Type} (ops : List (QOp α)) : List α :=
  ops.filterMap (fun op => match op with | QOp.enqueue c => some c | QOp.drain => none)

/-!
The HTTP surface of `main.py`.  `active_sessions` maps a session id to an
`AudioSession`; the temp directory holds audio files.  Only the state the
four session endpoints read or write is modelled (the `tts_manager`
internals are not observable through them).  Chunk bytes are `List Nat`;
the base64 encoding of `chunks_data` is injective and is not modelled.
-/

/-- One entry of a session's `messages` history list. -/
structure ChatMsg where
  role : List Char
  content : List Char
  audioPath : Option (List Char)
deriving DecidableEq

/-- The per-session state of `main.py` (`AudioSession`, lines 58-65). -/
structure AudioSession where
  messages : List ChatMsg
  currentResponse : List Char
  audioChunks : List (List Nat)
  isProcessing : Bool
deriving DecidableEq

/-- The mutable state the endpoints touch: the `active_sessions` mapping
and the names of the files in `TEMP_DIR`. -/
structure World where
  sessions : List (String × AudioSession)
  files : List (List Char)
deriving DecidableEq

/-- The errors observable at the HTTP surface.  Inside a handler body an
unknown session raises `HTTPException(status_code=404, detail="Session not
found")`; every endpoint body sits inside a blanket `except Exception as
e: raise HTTPException(status_code=500, detail=f"Error ...: {str(e)}")`
(`main.py` lines 467-468, 483-484, 507-508, 541-542), and `HTTPException`
subclasses `Exception`, so the endpoint's own 404 is caught there and
re-raised wrapped inside a 500 carrying the endpoint's context message.
`wrapped` records that re-raise structurally (the exact `str(e)`
rendering of the inner exception inside the 500's detail string is
library-defined and not modelled). -/
inductive ApiError where
  | notFound
  | wrapped (context : List Char) (inner : ApiError)
deriving DecidableEq

/-- The HTTP status code an `ApiError` is answered with. -/
def ApiError.status : ApiError → Nat
  | ApiError.notFound => 404
  | ApiError.wrapped _ _ => 500

/-- Dictionary lookup on an association list (Python `dict` access /
`in` test; keys are unique in a dict, the first binding wins here). -/
def alookup {β : Type} (k : String) : List (String × β) → Option β
  | [] => none
  | p :: ps => if p.1 = k then some p.2 else alookup k ps

/-- Dictionary write: replace the value bound to `sid`. -/
def setSession (sid : String) (s : AudioSession) (l : List (String × AudioSession)) :
    List (String × AudioSession) :=
  l.map (fun p => if p.1 = sid then (p.1, s) else p)

/-- Python `session_id in filename`: substring test. -/
def containsSub (pat s : List Char) : Bool :=
  (List.range (s.length + 1)).any (fun i => (s.drop i).take pat.length == pat)

/-- Response payload of `GET /api/get_audio_chunks` (minus the echoed
session id). -/
structure ChunksResp where
  numChunks : Nat
  isProcessing : Bool
  responseSoFar : List Char
  chunksData : List (List Nat)
deriving DecidableEq

/-- The `"status": "stopped"` payload value. -/
def statusStopped : List Char := "stopped".toList

/-- The `"status": "cleared"` payload value. -/
def statusCleared : List Char := "cleared".toList

/-- The blanket `try/except Exception` around every endpoint body: a
successful body passes through unchanged; ANY raised exception — the
body's own `HTTPException(404)` included — is re-raised as a 500 wrapping
it, tagged with the endpoint's context message. -/
def wrap500 {ρ : Type} (ctx : List Char) : Except ApiError ρ → Except ApiError ρ
  | Except.ok r => Except.ok r
  | Except.error e => Except.error (ApiError.wrapped ctx e)

/-- Context of the 500 raised by `get_audio_chunks` (`main.py` line 468). -/
def errGettingChunks : List Char := "Error getting audio chunks".toList

/-- Context of the 500 raised by `stop_session` (`main.py` line 484). -/
def errStoppingSession : List Char := "Error stopping session".toList

/-- Context of the 500 raised by `get_session_history` (line 508). -/
def errGettingHistory : List Char := "Error getting session history".toList

/-- Context of the 500 raised by `clear_session` (line 542). -/
def errClearingSession : List Char := "Error clearing session".toList

/-- The `try` block of `GET /api/get_audio_chunks` (`main.py` lines
446-466): raise the 404 on an unknown session; otherwise copy the pending
chunks into the response and clear the pending queue when it was
non-empty. -/
def getAudioChunksBody (w : World) (sid : String) : Except ApiError (World × ChunksResp) :=
  match alookup sid w.sessions with
  | none => Except.error ApiError.notFound
  | some s =>
    let chunks := s.audioChunks
    let s2 := if chunks.isEmpty then s else { s with audioChunks := [] }
    Except.ok
      ({ w with sessions := setSession sid s2 w.sessions },
       { numChunks := chunks.length, isProcessing := s.isProcessing,
         responseSoFar := s.currentResponse, chunksData := chunks })

/-- `GET /api/get_audio_chunks` as observed over HTTP (`main.py` lines
441-468): the body inside the blanket handler, so the internal 404 leaves
the endpoint as a 500 wrapping it. -/
def getAudioChunks (w : World) (sid : String) : Except ApiError (World × ChunksResp) :=
  wrap500 errGettingChunks (getAudioChunksBody w sid)

/-- The `try` block of `POST /api/stop_session` (`main.py` lines 476-482):
when the session exists its processing flag is set false (and the TTS
manager stopped); either way the body answers `"status": "stopped"` — an
unknown key raises nothing here. -/
def stopSessionBody (w : World) (sid : String) : Except ApiError (World × List Char) :=
  match alookup sid w.sessions with
  | some s =>
      Except.ok
        ({ w with sessions := setSession sid { s with isProcessing := false } w.sessions },
         statusStopped)
  | none => Except.ok (w, statusStopped)

/-- `POST /api/stop_session` as observed over HTTP (`main.py` lines
471-484): the body inside the blanket handler (which never fires, the
body raising nothing). -/
def stopSession (w : World) (sid : String) : Except ApiError (World × List Char) :=
  wrap500 errStoppingSession (stopSessionBody w sid)

/-- The copy-then-delete of `get_session_history`
(`message_copy = msg.copy(); del message_copy["audio_path"]`). -/
def stripAudioPath (m : ChatMsg) : ChatMsg := { m with audioPath := none }

/-- The `try` block of `GET /api/session_history` (`main.py` lines
492-506): raise the 404 on an unknown session; otherwise return each
stored message copied with its `audio_path` removed, the store untouched. -/
def getSessionHistoryBody (w : World) (sid : String) :
    Except ApiError (World × List ChatMsg) :=
  match alookup sid w.sessions with
  | none => Except.error ApiError.notFound
  | some s => Except.ok (w, s.messages.map stripAudioPath)

/-- `GET /api/session_history` as observed over HTTP (`main.py` lines
487-508): the body inside the blanket handler, so the internal 404 leaves
the endpoint as a 500 wrapping it. -/
def getSessionHistory (w : World) (sid : String) : Except ApiError (World × List ChatMsg) :=
  wrap500 errGettingHistory (getSessionHistoryBody w sid)

/-- The `try` block of `DELETE /api/clear_session` (`main.py` lines
516-540): raise the 404 on an unknown session; otherwise stop processing,
empty the history, and remove every temp file whose name contains the
session id. -/
def clearSessionBody (w : World) (sid : String) : Except ApiError (World × List Char) :=
  match alookup sid w.sessions with
  | some s =>
      Except.ok
        ({ sessions := setSession sid { s with isProcessing := false, messages := [] } w.sessions,
           files := w.files.filter (fun f => !(containsSub sid.toList f)) },
         statusCleared)
  | none => Except.error ApiError.notFound

/-- `DELETE /api/clear_session` as observed over HTTP (`main.py` lines
511-542): the body inside the blanket handler, so the internal 404 leaves
the endpoint as a 500 wrapping it. -/
def clearSession (w : World) (sid : String) : Except ApiError (World × List Char) :=
  wrap500 errClearingSession (clearSessionBody w sid)

/-- Concrete session used by endpoint witnesses: two pending chunks, two
history messages carrying audio paths. -/
def sess0 : AudioSession :=
  { messages :=
      [ { role := "user".toList, content := "hi".toList,
          audioPath := some "s1_in.wav".toList },
        { role := "assistant".toList, content := "hello".toList,
          audioPath := some "s1_out.wav".toList } ],
    currentResponse := "hello".toList,
    audioChunks := [[1, 2], [3]],
    isProcessing := true }

/-- Concrete world with the single session `"s1"`. -/
def world0 : World :=
  { sessions := [("s1", sess0)], files := ["s1_in.wav".toList, "other.wav".toList] }

/-- `sess0` after one drain call. -/
def sess0Drained : AudioSession := { sess0 with audioChunks := [] }

/-- `world0` after one drain call on `"s1"`. -/
def world0Drained : World := { world0 with sessions := [("s1", sess0Drained)] }

instance {ε α : Type} [DecidableEq ε] [DecidableEq α] : DecidableEq (Except ε α) := fun x y =>
  match x, y with
  | Except.ok a, Except.ok b =>
      if h : a = b then isTrue (by rw [h])
      else isFalse (fun hc => h (Except.ok.inj hc))
  | Except.error a, Except.error b =>
      if h : a = b then isTrue (by rw [h])
      else isFalse (fun hc => h (Except.error.inj hc))
  | Except.ok _, Except.error _ => isFalse (fun hc => Except.noConfusion hc)
  | Except.error _, Except.ok _ => isFalse (fun hc => Except.noConfusion hc)

/-!
The background pipeline of `main.py` (`process_audio_stream`, lines
326-425) with its threshold/break-char segmentation, and the cooperative
cancellation of `stop_session` (lines 471-484).  Waveform samples are a
type parameter `W`; a synthesis call (`tts_manager.process_chunk`, always
on non-blank text here) returns the unit's samples, which are appended
both to the session's pending chunk queue (as one chunk) and to the
manager's running `all_audio` buffer.  Cancellation flips a flag read by
the loop guard `if chunk and session.is_processing`, so a cancel takes
effect at the next loop iteration; `save_complete_audio` (lines 208-216)
then still returns the accumulated waveform, or `None` when it is empty.
-/

/-- Python `str.rfind` for a pattern: start index of the rightmost
occurrence, if any. -/
def pyRfind (s pat : List Char) : Option Nat :=
  ((List.range (s.length + 1)).filter (fun i => (s.drop i).take pat.length == pat)).getLast?

/-- The `break_chars` list of `process_audio_stream` (line 341), in list
order; note `" - "` is a three-character pattern. -/
def breakChars : List (List Char) :=
  [['.'], [','], ['!'], ['?'], [':'], [';'], [' ', '-', ' '], ['\n']]

/-- The `for char in break_chars` scan (lines 354-358): the FIRST pattern
in list order whose rightmost occurrence starts strictly after index 5
(`min_chunk_size // 2`) sets the cut to one past that start; a pattern
found at 5 or earlier (or not at all, `rfind` = -1) falls through to the
next pattern. -/
def scanBreakChars (buf : List Char) : List (List Char) → Option Nat
  | [] => none
  | pat :: rest =>
    match pyRfind buf pat with
    | some pos => if 5 < pos then some (pos + 1) else scanBreakChars buf rest
    | none => scanBreakChars buf rest

/-- `process_index`: the scan result, defaulting to the whole buffer
(line 351; the re-assignment on lines 361-365 is a no-op). -/
def findBreakIndex (buf : List Char) : Nat :=
  (scanBreakChars buf breakChars).getD buf.length

/-- The state of one streaming run: the session fields `is_processing`,
`current_response`, `audio_chunks` and the locals/manager state
`text_buffer`, `all_audio`. -/
structure MState (W : Type) where
  isProcessing : Bool
  currentResponse : List Char
  textBuffer : List Char
  audioChunks : List (List W)
  allAudio : List W
deriving DecidableEq

/-- State at the start of a run (`stream_voice_chat` lines 301-323:
flag set true, chunks and response cleared, TTS manager reset). -/
def initMState (W : Type) : MState W :=
  { isProcessing := true, currentResponse := [], textBuffer := [],
    audioChunks := [], allAudio := [] }

/-- One iteration of the `for chunk in response_generator` loop (lines
343-394): skipped entirely for a falsy delta or a cancelled session;
otherwise the delta is appended to the response and buffer, and once the
buffer holds at least `min_chunk_size = 10` characters it is cut at the
break index, the cut prefix is stripped, and a non-blank prefix is
synthesized and enqueued. -/
def mstep {W : Type} (synth : List Char → List W) (st : MState W) (d : List Char) :
    MState W :=
  if d.isEmpty || !st.isProcessing then st
  else
    let cr := st.currentResponse ++ d
    let tb := st.textBuffer ++ d
    if 10 ≤ tb.length then
      let idx := findBreakIndex tb
      if 0 < idx then
        let t := pyStrip (tb.take idx)
        if t.isEmpty then
          { st with currentResponse := cr, textBuffer := tb.drop idx }
        else
          let wv := synth t
          { st with
            currentResponse := cr, textBuffer := tb.drop idx,
            audioChunks := st.audioChunks ++ [wv], allAudio := st.allAudio ++ wv }
      else { st with currentResponse := cr, textBuffer := tb }
    else { st with currentResponse := cr, textBuffer := tb }

/-- The `if text_buffer and session.is_processing` flush after the loop
(lines 396-411); `process_chunk` returns `None` (enqueuing nothing) when
the leftover is blank. -/
def mflush {W : Type} (synth : List Char → List W) (st : MState W) : MState W :=
  if !st.textBuffer.isEmpty && st.isProcessing then
    if (pyStrip st.textBuffer).isEmpty then st
    else
      let wv := synth st.textBuffer
      { st with audioChunks := st.audioChunks ++ [wv], allAudio := st.allAudio ++ wv }
  else st

/-- Fold the loop body over a list of LLM deltas. -/
def runSeg {W : Type} (synth : List Char → List W) (st : MState W)
    (ds : List (List Char)) : MState W :=
  ds.foldl (mstep synth) st

/-- `stop_session` on the running session: sets the processing flag false
(the TTS manager stop only flips its own internal flag). -/
def cancelRun {W : Type} (st : MState W) : MState W := { st with isProcessing := false }

/-- `save_complete_audio` (lines 208-216): `None` when nothing was
accumulated, otherwise the waveform concatenated across the run. -/
def saveCompleteAudio {W : Type} (st : MState W) : Option (List W) :=
  if st.allAudio.isEmpty then none else some st.allAudio

/-- A whole run during which `stop_session` arrives between loop
iterations `k` and `k+1`: the first `k` deltas are processed normally, the
flag is then cleared, the remaining deltas still iterate (but are guarded
out), the flush runs, the complete audio is saved and the flag is set
false (line 425).  `k ≥ deltas.length` models a run that was never
cancelled before the loop ended. -/
def runWithCancel {W : Type} (synth : List Char → List W)
    (deltas : List (List Char)) (k : Nat) : MState W × Option (List W) :=
  let st1 := runSeg synth (initMState W) (deltas.take k)
  let st2 := cancelRun st1
  let st3 := runSeg synth st2 (deltas.drop k)
  let st4 := mflush synth st3
  ({ st4 with isProcessing := false }, saveCompleteAudio st4)

/-!
`session_utils.SessionManager`: a mapping from session id to a session
record carrying timestamps, plus the temp directory contents and the
configured expiry window.  Times are naturals (seconds).  Of the session
record only the timestamps are modelled — the expiry logic reads nothing
else.  Nat subtraction truncates at zero exactly where the Python float
difference would be negative, and neither side exceeds the expiry window
there (the window is non-negative).
-/

/-- The timestamps of one stored session. -/
structure SessData where
  createdAt : Nat
  lastActivity : Nat
deriving DecidableEq

/-- The manager state: `self.sessions`, the temp dir contents, and
`self.expiry_seconds`. -/
structure SMState where
  sessions : List (String × SessData)
  files : List (List Char)
  expiry : Nat
deriving DecidableEq

/-- `SessionManager.delete_session` (lines 64-80): when the id is known,
remove every temp file whose name contains it and drop it from the
mapping; otherwise do nothing. -/
def deleteSession (st : SMState) (sid : String) : SMState :=
  if (alookup sid st.sessions).isSome then
    { st with
      files := st.files.filter (fun f => !(containsSub sid.toList f)),
      sessions := st.sessions.filter (fun p => !(p.1 == sid)) }
  else st

/-- The ids collected as expired by `cleanup_expired_sessions` (lines
86-92): those whose idle time exceeds the expiry window. -/
def expiredIds (st : SMState) (now : Nat) : List String :=
  (st.sessions.filter (fun p => decide (st.expiry < now - p.2.lastActivity))).map Prod.fst

/-- `SessionManager.cleanup_expired_sessions` (lines 82-97): delete every
collected expired session. -/
def cleanupExpiredSessions (st : SMState) (now : Nat) : SMState :=
  (expiredIds st now).foldl deleteSession st

/-- `SessionManager.create_session` (lines 25-38): bind the id to a fresh
record stamped with the current time (a dict write replaces any previous
binding). -/
def createSession (st : SMState) (now : Nat) (sid : String) : SMState × SessData :=
  let d : SessData := { createdAt := now, lastActivity := now }
  ({ st with sessions := (sid, d) :: st.sessions.filter (fun p => !(p.1 == sid)) }, d)

/-- `SessionManager.get_session` (lines 40-51): sweep expired sessions
first, then create a fresh session for an id now unknown, or touch and
return the existing one. -/
def getSession (st : SMState) (now : Nat) (sid : String) : SMState × SessData :=
  let st1 := cleanupExpiredSessions st now
  match alookup sid st1.sessions with
  | none => createSession st1 now sid
  | some d =>
      ({ st1 with
         sessions := st1.sessions.map
           (fun p => if p.1 = sid then (p.1, { p.2 with lastActivity := now }) else p) },
       { d with lastActivity := now })

/-- Concrete manager state for the C8 witness: one session, last active at
time 0, expiry window 10, two temp files of which one carries the id. -/
def smw : SMState :=
  { sessions := [("s1", { createdAt := 0, lastActivity := 0 })],
    files := ["s1_a.wav".toList, "keep.wav".toList],
    expiry := 10 }

/-- Reconstruction invariant of the split scan: interleaving every finished
fragment with the separator consumed after it, followed by the last
fragment, spells out the whole input. -/
theorem segAux_recon (rest : List Char) :
    ∀ (pairs : List (List Char × List Char)) (frag sep : List Char),
      ((segAux pairs frag sep rest).1.map (fun p => p.1 ++ p.2)).flatten
          ++ (segAux pairs frag sep rest).2
        = ((pairs.reverse.map (fun p => p.1 ++ p.2)).flatten ++ frag.reverse)
            ++ sep.reverse ++ rest := by
  induction rest with
  | nil =>
    intro pairs frag sep
    cases sep with
    | nil => simp [segAux]
    | cons s sep => simp [segAux]
  | cons c cs ih =>
    intro pairs frag sep
    cases sep with
    | nil =>
      cases hb : isWs c && headIsPunct frag with
      | true => simp [segAux, hb, ih]
      | false => simp [segAux, hb, ih]
    | cons s sep =>
      cases hb : isWs c with
      | true => simp [segAux, hb, ih]
      | false => simp [segAux, hb, ih]

/-- The regex split is lossless once the consumed whitespace separators are
restored after their fragments. -/
theorem splitSent_recon (s : List Char) :
    ((splitSent s).1.map (fun p => p.1 ++ p.2)).flatten ++ (splitSent s).2 = s := by
  simpa [splitSent] using segAux_recon s [] [] []

/-- Invariant of the split scan: every complete fragment ends with one of
the sentence-terminal punctuation characters (this is what the regex
lookbehind enforces). -/
theorem segAux_pairs_punct (rest : List Char) :
    ∀ (pairs : List (List Char × List Char)) (frag sep : List Char),
      (sep ≠ [] → headIsPunct frag = true) →
      (∀ p ∈ pairs, headIsPunct p.1.reverse = true) →
      ∀ p ∈ (segAux pairs frag sep rest).1, headIsPunct p.1.reverse = true := by
  induction rest with
  | nil =>
    intro pairs frag sep h1 h2
    cases sep with
    | nil =>
      intro p hp
      simp only [segAux, List.mem_reverse] at hp
      exact h2 p hp
    | cons s sep =>
      intro p hp
      simp only [segAux, List.mem_reverse, List.mem_cons] at hp
      rcases hp with hp | hp
      · subst hp; simpa using h1 (by simp)
      · exact h2 p hp
  | cons c cs ih =>
    intro pairs frag sep h1 h2
    cases sep with
    | nil =>
      cases hb : isWs c && headIsPunct frag with
      | true =>
        simp only [segAux, hb, if_pos]
        exact ih pairs frag [c] (fun _ => (Bool.and_eq_true _ _ |>.mp hb).2) h2
      | false =>
        simp only [segAux, hb]
        exact ih pairs (c :: frag) [] (by simp) h2
    | cons s sep =>
      cases hb : isWs c with
      | true =>
        simp only [segAux, hb, if_pos]
        exact ih pairs frag (c :: s :: sep) (fun _ => h1 (by simp)) h2
      | false =>
        simp only [segAux, hb]
        refine ih ((frag.reverse, (s :: sep).reverse) :: pairs) [c] [] (by simp) ?_
        intro p hp
        rcases List.mem_cons.mp hp with hp | hp
        · subst hp; simpa using h1 (by simp)
        · exact h2 p hp

/-- Sentence-terminal punctuation is not whitespace. -/
theorem punct_not_ws {c : Char} (h : isSentencePunct c = true) : isWs c = false := by
  simp only [isSentencePunct, Bool.or_eq_true, decide_eq_true_eq] at h
  rcases h with (h | h) | h <;> subst h <;> decide

/-- A list whose last character is sentence-terminal punctuation has a
non-blank Python `strip()`. -/
theorem pyStrip_ne_nil_of_punct {l : List Char} (h : headIsPunct l.reverse = true) :
    pyStrip l ≠ [] := by
  cases hr : l.reverse with
  | nil => rw [hr] at h; simp [headIsPunct] at h
  | cons c t =>
    rw [hr] at h
    have hc : isSentencePunct c = true := h
    have hcl : c ∈ l := by
      have : c ∈ l.reverse := by rw [hr]; exact List.mem_cons_self c t
      exact List.mem_reverse.mp this
    intro hnil
    have hall : ∀ x ∈ l, isWs x = true := by
      have h2 : ((l.dropWhile isWs).reverse.dropWhile isWs) = [] := by
        have := congrArg List.reverse hnil
        simpa [pyStrip] using this
      have h3 : ∀ x ∈ (l.dropWhile isWs).reverse, isWs x = true :=
        List.dropWhile_eq_nil_iff.mp h2
      intro x hx
      rcases List.mem_append.mp ((List.takeWhile_append_dropWhile (p := isWs) (l := l)) ▸ hx) with
        hx1 | hx2
      · exact List.mem_takeWhile_imp hx1
      · exact h3 x (List.mem_reverse.mpr hx2)
    have := hall c hcl
    rw [punct_not_ws hc] at this
    exact Bool.false_ne_true this

/-- The strip filter on complete fragments is vacuous: `feed` emits exactly
the complete fragments of the split, and the same new buffer. -/
theorem feed_eq_feedFull (buf chunk : List Char) :
    feed buf chunk = ((feedFull buf chunk).1.map Prod.fst, (feedFull buf chunk).2) := by
  unfold feed feedFull
  have hp : ∀ p ∈ (splitSent (buf ++ chunk)).1, headIsPunct p.1.reverse = true :=
    segAux_pairs_punct (buf ++ chunk) [] [] [] (by simp) (by simp)
  have hfilter :
      ((splitSent (buf ++ chunk)).1.map Prod.fst).filter
          (fun f => !(pyStrip f).isEmpty)
        = (splitSent (buf ++ chunk)).1.map Prod.fst := by
    apply List.filter_eq_self.mpr
    intro f hf
    rcases List.mem_map.mp hf with ⟨p, hpmem, rfl⟩
    have := pyStrip_ne_nil_of_punct (hp p hpmem)
    simpa [List.isEmpty_iff] using this
  simp [hfilter]

theorem feedMany_eq_foldl (deltas : List (List Char)) :
    feedMany deltas = deltas.foldl feedStep ([], []) := rfl

theorem processStreamFull_eq_foldl (deltas : List (List Char)) :
    processStreamFull deltas = deltas.foldl fullStep ([], []) := rfl

/-- Units already accumulated are only appended to by the fold. -/
theorem foldl_feedStep_acc (deltas : List (List Char)) :
    ∀ (us : List (List Char)) (b : List Char),
      deltas.foldl feedStep (us, b)
        = (us ++ (deltas.foldl feedStep ([], b)).1, (deltas.foldl feedStep ([], b)).2) := by
  induction deltas with
  | nil => intro us b; simp
  | cons d ds ih =>
    intro us b
    simp only [List.foldl_cons]
    cases hd : d.isEmpty with
    | true =>
      have hstep : ∀ acc : List (List Char) × List Char, feedStep acc d = acc := by
        intro acc; simp [feedStep, hd]
      rw [hstep, hstep]
      exact ih us b
    | false =>
      have hstep : ∀ acc : List (List Char) × List Char,
          feedStep acc d = (acc.1 ++ (feed acc.2 d).1, (feed acc.2 d).2) := by
        intro acc; simp [feedStep, hd]
      rw [hstep, hstep]
      simp only [List.nil_append]
      rw [ih (us ++ (feed b d).1) (feed b d).2, ih (feed b d).1 (feed b d).2]
      simp [List.append_assoc]

/-- Same accumulator lemma for the separator-preserving fold. -/
theorem foldl_fullStep_acc (deltas : List (List Char)) :
    ∀ (ps : List (List Char × List Char)) (b : List Char),
      deltas.foldl fullStep (ps, b)
        = (ps ++ (deltas.foldl fullStep ([], b)).1, (deltas.foldl fullStep ([], b)).2) := by
  induction deltas with
  | nil => intro ps b; simp
  | cons d ds ih =>
    intro ps b
    simp only [List.foldl_cons]
    cases hd : d.isEmpty with
    | true =>
      have hstep : ∀ acc : List (List Char × List Char) × List Char, fullStep acc d = acc := by
        intro acc; simp [fullStep, hd]
      rw [hstep, hstep]
      exact ih ps b
    | false =>
      have hstep : ∀ acc : List (List Char × List Char) × List Char,
          fullStep acc d = (acc.1 ++ (feedFull acc.2 d).1, (feedFull acc.2 d).2) := by
        intro acc; simp [fullStep, hd]
      rw [hstep, hstep]
      simp only [List.nil_append]
      rw [ih (ps ++ (feedFull b d).1) (feedFull b d).2, ih (feedFull b d).1 (feedFull b d).2]
      simp [List.append_assoc]

/-- The plain fold emits exactly the first components of the
separator-preserving fold, with the same final buffer. -/
theorem feedMany_eq_full (deltas : List (List Char)) :
    feedMany deltas
      = ((processStreamFull deltas).1.map Prod.fst, (processStreamFull deltas).2) := by
  rw [feedMany_eq_foldl, processStreamFull_eq_foldl]
  suffices h : ∀ (b : List Char),
      deltas.foldl feedStep ([], b)
        = ((deltas.foldl fullStep ([], b)).1.map Prod.fst,
           (deltas.foldl fullStep ([], b)).2) from h []
  induction deltas with
  | nil => intro b; simp
  | cons d ds ih =>
    intro b
    simp only [List.foldl_cons]
    cases hd : d.isEmpty with
    | true =>
      have hstep1 : feedStep ([], b) d = ([], b) := by simp [feedStep, hd]
      have hstep2 : fullStep ([], b) d = ([], b) := by simp [fullStep, hd]
      rw [hstep1, hstep2]
      exact ih b
    | false =>
      have hstep1 : feedStep ([], b) d
          = ((feedFull b d).1.map Prod.fst, (feedFull b d).2) := by
        simp [feedStep, hd, feed_eq_feedFull]
      have hstep2 : fullStep ([], b) d = ((feedFull b d).1, (feedFull b d).2) := by
        simp [fullStep, hd]
      rw [hstep1, hstep2]
      rw [foldl_feedStep_acc ds ((feedFull b d).1.map Prod.fst) (feedFull b d).2,
        foldl_fullStep_acc ds (feedFull b d).1 (feedFull b d).2,
        ih (feedFull b d).2]
      simp

/-- Reconstruction along the whole run: the fragments with their separators
plus the final buffer spell out the concatenated input deltas. -/
theorem foldl_fullStep_recon (deltas : List (List Char)) :
    ∀ (ps : List (List Char × List Char)) (b : List Char),
      (((deltas.foldl fullStep (ps, b)).1.map (fun p => p.1 ++ p.2)).flatten
          ++ (deltas.foldl fullStep (ps, b)).2)
        = ((ps.map (fun p => p.1 ++ p.2)).flatten ++ b) ++ deltas.flatten := by
  induction deltas with
  | nil => intro ps b; simp
  | cons d ds ih =>
    intro ps b
    cases hd : d.isEmpty with
    | true =>
      have hdnil : d = [] := by simpa [List.isEmpty_iff] using hd
      subst hdnil
      simp [fullStep, ih]
    | false =>
      simp only [List.foldl_cons, fullStep, hd, Bool.false_eq_true, if_false]
      rw [ih]
      have hrecon := splitSent_recon (b ++ d)
      simp only [feedFull]
      simp [List.append_assoc]
      rw [← List.append_assoc _ _ (ds.flatten), hrecon]
      simp [List.append_assoc]

/-- C1 (counterexample): segmentation is not lossless as stated.  For the
single-delta input `"Hello there. How are you?"` the concatenation of the
emitted sentence units plus the final retained remainder is
`"Hello there.How are you?"` — the whitespace run consumed by the regex
split after each complete sentence is dropped. -/
theorem C1_counterexample :
    ¬ ((processStream [helloHow]).1.flatten ++ (processStream [helloHow]).2
        = [helloHow].flatten) := by decide

/-- C1 (amended): segmentation drops exactly the whitespace separators that
delimit complete sentences and nothing else.  Restoring after each emitted
unit the whitespace separator that followed it in the input, and appending
the final retained remainder, reproduces the concatenated input stream
exactly; moreover the units the run emits are precisely the complete
fragments of the separator-annotated split, followed by the flushed
remainder when it is non-empty. -/
theorem C1_amended_lossless (deltas : List (List Char)) :
    ((processStreamFull deltas).1.map (fun p => p.1 ++ p.2)).flatten
        ++ (processStreamFull deltas).2 = deltas.flatten
    ∧ (processStream deltas).1
        = (processStreamFull deltas).1.map Prod.fst
            ++ (if (processStreamFull deltas).2.isEmpty then []
                else [(processStreamFull deltas).2]) := by
  constructor
  · have h := foldl_fullStep_recon deltas [] []
    simpa [processStreamFull_eq_foldl] using h
  · have h := feedMany_eq_full deltas
    simp only [processStream, h]
    cases hb : (processStreamFull deltas).2.isEmpty with
    | true => simp [hb]
    | false => simp [hb]

/-- C2 (counterexample): with the input fed as the deltas `"Hello the"`
then `"re. How are you?"`, the first feed call indeed emits nothing and
retains `"Hello the"`, but the second feed call emits exactly ONE unit
(`"Hello there."`) and retains the non-empty remainder `"How are you?"` —
not two units with an empty remainder as claimed: `"How are you?"` carries
no trailing sentence boundary, so it stays buffered until the stream-end
flush. -/
theorem C2_counterexample :
    feed [] "Hello the".toList = ([], "Hello the".toList) ∧
    feed "Hello the".toList "re. How are you?".toList
      = (["Hello there.".toList], "How are you?".toList) ∧
    ¬ ((feed "Hello the".toList "re. How are you?".toList).1.length = 2 ∧
       (feed "Hello the".toList "re. How are you?".toList).2 = []) := by decide

/-- C2 (amended): the first feed call emits zero units and retains
`"Hello the"`; the second feed call emits the single unit `"Hello there."`
and retains `"How are you?"`; the end-of-stream flush then emits that
remainder, so the run as a whole emits the two units `"Hello there."` and
`"How are you?"` and leaves nothing unemitted. -/
theorem C2_two_delta_feed :
    feed [] "Hello the".toList = ([], "Hello the".toList) ∧
    feed "Hello the".toList "re. How are you?".toList
      = (["Hello there.".toList], "How are you?".toList) ∧
    processStream ["Hello the".toList, "re. How are you?".toList]
      = (["Hello there.".toList, "How are you?".toList], []) := by decide

/-- C6: fed the single delta `"Hello there. How are you? I'm fine!"`, the
segmentation run emits exactly the three units `"Hello there."`,
`"How are you?"` and `"I'm fine!"`, in that order (the first two from the
feed call, the third from the end-of-stream flush of the retained buffer),
and no text is left unemitted. -/
theorem C6_segmentation :
    processStream [helloFine]
      = (["Hello there.".toList, "How are you?".toList, imFine], []) := by decide

/-- Invariant of the queue interleaving: the batches drained so far,
flattened, followed by the still-pending queue, list exactly the enqueued
chunks in order. -/
theorem foldl_qstep_inv {α : Type} (ops : List (QOp α)) :
    ∀ (q : List α) (outs : List (List α)),
      (ops.foldl qstep (q, outs)).2.flatten ++ (ops.foldl qstep (q, outs)).1
        = (outs.flatten ++ q) ++ enqueued ops := by
  induction ops with
  | nil => intro q outs; simp [enqueued]
  | cons op ops ih =>
    intro q outs
    cases op with
    | enqueue c =>
      simp only [List.foldl_cons, qstep]
      rw [ih]
      simp [enqueued, List.append_assoc]
    | drain =>
      simp only [List.foldl_cons, qstep]
      rw [ih]
      cases hq : q.isEmpty with
      | true =>
        have hqnil : q = [] := by simpa [List.isEmpty_iff] using hq
        subst hqnil
        simp [enqueued]
      | false => simp [enqueued, hq, List.append_assoc]

/-- C3: for every interleaving of chunk-append (producer) and drain
(single reader) steps on one session, the concatenation of all drained
batches followed by the chunks still pending equals the appended chunks in
append order.  Hence every appended chunk is returned by at most one drain
call and is never duplicated or lost, drained chunks come back in FIFO
order, and a chunk not yet returned is still pending in the queue. -/
theorem C3_fifo_exactly_once {α : Type} (ops : List (QOp α)) :
    (runQueue ops).2.flatten ++ (runQueue ops).1 = enqueued ops := by
  have h := foldl_qstep_inv ops [] []
  simpa [runQueue] using h

/-- C4 (counterexample): in `AudioProcessor.process_stream` the exception
handler wraps the whole loop, so the synthesis failure on the middle unit
`"B."` aborts the run: the audio for `"Cccc."` is never produced even
though its synthesis succeeds, refuting "a per-unit synthesis failure
never aborts the run". -/
theorem C4_counterexample :
    runSentences synthBad ["Aa.".toList, "B.".toList, "Cccc.".toList]
      = ([3], some 7)
    ∧ synthBad "Cccc.".toList = Except.ok (some 5) := ⟨rfl, rfl⟩

/-- C4 (amended): in the WebSocket path (`api_v2.process_text_message`) a
synthesis failure on one non-blank unit is caught per-unit and reported as
an error message, and processing continues to the next unit: the messages
for the units before and after the failing one are exactly what they would
be on their own.  In the polling path (`AudioProcessor.process_stream`)
there is no per-unit handler and a synthesis failure ends the run early
(see the counterexample). -/
theorem C4_ws_failure_continues {ε α : Type} (synth : List Char → Except ε (Option α))
    (us1 us2 : List (List Char)) (u : List Char) (e : ε)
    (hu : (pyStrip u).isEmpty = false) (hfail : synth u = Except.error e) :
    processTextChunks synth (us1 ++ u :: us2)
      = processTextChunks synth us1
          ++ WsMsg.ttsFailed e :: processTextChunks synth us2 := by
  induction us1 with
  | nil => simp [processTextChunks, hu, hfail]
  | cons v vs ih =>
    simp only [List.cons_append, processTextChunks, List.append_eq]
    rw [ih]
    cases hv : (pyStrip v).isEmpty <;> simp [hv]

/-- Witness for C4: the amended continuation property at the concrete
failing synthesizer, with both hypotheses discharged. -/
theorem C4_ws_failure_continues_witness :
    (pyStrip "B.".toList).isEmpty = false
    ∧ synthBad "B.".toList = Except.error 7
    ∧ processTextChunks synthBad (["Aa.".toList] ++ "B.".toList :: ["Cccc.".toList])
        = processTextChunks synthBad ["Aa.".toList]
            ++ WsMsg.ttsFailed 7 :: processTextChunks synthBad ["Cccc.".toList] :=
  ⟨by decide, rfl,
    C4_ws_failure_continues synthBad ["Aa.".toList] ["Cccc.".toList] "B.".toList 7
      (by decide) rfl⟩

/-- The blanket handler is the identity on successful bodies: an endpoint
answers ok exactly when its `try` block does. -/
theorem wrap500_ok_iff {ρ : Type} (ctx : List Char) (x : Except ApiError ρ) (r : ρ) :
    wrap500 ctx x = Except.ok r ↔ x = Except.ok r := by
  cases x with
  | ok r2 => simp [wrap500]
  | error e => simp [wrap500]

/-- Writing the looked-up key rebinds it: after `setSession sid v`,
looking up `sid` yields `v`, provided `sid` was bound before. -/
theorem alookup_setSession (sid : String) (v : AudioSession) :
    ∀ l : List (String × AudioSession),
      (alookup sid l).isSome = true → alookup sid (setSession sid v l) = some v := by
  intro l
  induction l with
  | nil => intro h; simp [alookup] at h
  | cons p ps ih =>
    intro h
    by_cases hp : p.1 = sid
    · simp [setSession, alookup, hp]
    · simp only [setSession, List.map_cons, if_neg hp]
      simp only [alookup, if_neg hp] at h ⊢
      exact ih h

/-- C9: two consecutive successful drain calls on the same session with no
chunk production in between — whatever the first returned, the second
returns the empty chunk list (the first call cleared the pending queue, or
it was empty already). -/
theorem C9_drain_idempotent (w : World) (sid : String)
    (w1 w2 : World) (r1 r2 : ChunksResp)
    (h1 : getAudioChunks w sid = Except.ok (w1, r1))
    (h2 : getAudioChunks w1 sid = Except.ok (w2, r2)) :
    r2.chunksData = [] ∧ r2.numChunks = 0 := by
  unfold getAudioChunks at h1 h2
  rw [wrap500_ok_iff] at h1 h2
  unfold getAudioChunksBody at h1
  cases hl : alookup sid w.sessions with
  | none => rw [hl] at h1; exact absurd h1 (by simp)
  | some s =>
    rw [hl] at h1
    simp only [Except.ok.injEq, Prod.mk.injEq] at h1
    obtain ⟨hw1, hr1⟩ := h1
    have hsome : (alookup sid w.sessions).isSome = true := by rw [hl]; rfl
    have hlook2 : alookup sid w1.sessions
        = some (if s.audioChunks.isEmpty then s else { s with audioChunks := [] }) := by
      rw [← hw1]
      exact alookup_setSession sid _ w.sessions hsome
    have hchunks : (if s.audioChunks.isEmpty then s
        else { s with audioChunks := [] }).audioChunks = [] := by
      cases hq : s.audioChunks.isEmpty with
      | true =>
        have hnil : s.audioChunks = [] := by simpa [List.isEmpty_iff] using hq
        simp [hq, hnil]
      | false => simp [hq]
    simp only [getAudioChunksBody, hlook2, hchunks, List.isEmpty_nil, List.length_nil,
      if_true, Except.ok.injEq, Prod.mk.injEq] at h2
    obtain ⟨hw2, hr2⟩ := h2
    rw [← hr2]
    exact ⟨rfl, rfl⟩

/-- Witness for C9: both drain calls evaluated on a concrete session with
two pending chunks; the second returns no chunks. -/
theorem C9_drain_idempotent_witness :
    getAudioChunks world0 "s1"
        = Except.ok (world0Drained,
            { numChunks := 2, isProcessing := true,
              responseSoFar := "hello".toList, chunksData := [[1, 2], [3]] })
    ∧ getAudioChunks world0Drained "s1"
        = Except.ok (world0Drained,
            { numChunks := 0, isProcessing := true,
              responseSoFar := "hello".toList, chunksData := [] })
    ∧ (({ numChunks := 0, isProcessing := true,
          responseSoFar := "hello".toList, chunksData := [] } : ChunksResp).chunksData = []
        ∧ ({ numChunks := 0, isProcessing := true,
             responseSoFar := "hello".toList, chunksData := [] } : ChunksResp).numChunks = 0) :=
  ⟨by decide, by decide,
    C9_drain_idempotent world0 "s1" world0Drained world0Drained
      { numChunks := 2, isProcessing := true,
        responseSoFar := "hello".toList, chunksData := [[1, 2], [3]] }
      { numChunks := 0, isProcessing := true,
        responseSoFar := "hello".toList, chunksData := [] }
      (by decide) (by decide)⟩

/-- C7 (counterexample): the claim fails twice on the empty session store.
`stop_session` with an unknown key does not fail at all — it answers
`"status": "stopped"` — and the chunk-drain endpoint does fail, but its
observable error is the 500 produced by its blanket exception handler
wrapping the internal 404, not a 404 `"Session not found"` response. -/
theorem C7_counterexample :
    alookup "s1" (World.mk [] []).sessions = none
    ∧ stopSession (World.mk [] []) "s1" = Except.ok (World.mk [] [], statusStopped)
    ∧ getAudioChunks (World.mk [] []) "s1"
        = Except.error (ApiError.wrapped errGettingChunks ApiError.notFound)
    ∧ (ApiError.wrapped errGettingChunks ApiError.notFound).status = 500
    ∧ ApiError.notFound.status = 404 :=
  ⟨rfl, rfl, rfl, rfl, rfl⟩

/-- C7 (amended): with an unknown session key, the chunk-drain, history
and clear bodies each raise the internal 404 `"Session not found"`, but
each endpoint's blanket `except Exception` handler catches that
`HTTPException` and the response observable over HTTP is a 500 wrapping it
(status 500, never a bare 404); the stop operation performs no existence
check at all and answers `"status": "stopped"` without touching any
state. -/
theorem C7_unknown_session (w : World) (sid : String)
    (h : alookup sid w.sessions = none) :
    getAudioChunksBody w sid = Except.error ApiError.notFound
    ∧ getAudioChunks w sid
        = Except.error (ApiError.wrapped errGettingChunks ApiError.notFound)
    ∧ getSessionHistoryBody w sid = Except.error ApiError.notFound
    ∧ getSessionHistory w sid
        = Except.error (ApiError.wrapped errGettingHistory ApiError.notFound)
    ∧ clearSessionBody w sid = Except.error ApiError.notFound
    ∧ clearSession w sid
        = Except.error (ApiError.wrapped errClearingSession ApiError.notFound)
    ∧ stopSession w sid = Except.ok (w, statusStopped)
    ∧ (ApiError.wrapped errGettingChunks ApiError.notFound).status = 500
    ∧ ApiError.notFound.status = 404 := by
  refine ⟨?_, ?_, ?_, ?_, ?_, ?_, ?_, rfl, rfl⟩ <;>
    simp [getAudioChunksBody, getAudioChunks, getSessionHistoryBody, getSessionHistory,
      clearSessionBody, clearSession, stopSessionBody, stopSession, wrap500, h]

/-- Witness for C7: the amended behaviour on the empty store. -/
theorem C7_unknown_session_witness :
    alookup "s1" (World.mk [] []).sessions = none
    ∧ (getAudioChunksBody (World.mk [] []) "s1" = Except.error ApiError.notFound
       ∧ getAudioChunks (World.mk [] []) "s1"
           = Except.error (ApiError.wrapped errGettingChunks ApiError.notFound)
       ∧ getSessionHistoryBody (World.mk [] []) "s1" = Except.error ApiError.notFound
       ∧ getSessionHistory (World.mk [] []) "s1"
           = Except.error (ApiError.wrapped errGettingHistory ApiError.notFound)
       ∧ clearSessionBody (World.mk [] []) "s1" = Except.error ApiError.notFound
       ∧ clearSession (World.mk [] []) "s1"
           = Except.error (ApiError.wrapped errClearingSession ApiError.notFound)
       ∧ stopSession (World.mk [] []) "s1" = Except.ok (World.mk [] [], statusStopped)
       ∧ (ApiError.wrapped errGettingChunks ApiError.notFound).status = 500
       ∧ ApiError.notFound.status = 404) :=
  ⟨rfl, C7_unknown_session (World.mk [] []) "s1" rfl⟩

/-- C10: retrieving a session's history succeeds and returns one message
per stored message, in order, with the same role and content but with the
`audio_path` field removed; the session store itself is returned unchanged
(the stored messages keep their audio paths — the endpoint deletes the
field only on copies). -/
theorem C10_history_strips_audio (w : World) (sid : String) (s : AudioSession)
    (h : alookup sid w.sessions = some s) :
    ∃ msgs : List ChatMsg,
      getSessionHistory w sid = Except.ok (w, msgs)
      ∧ msgs.length = s.messages.length
      ∧ (∀ i : Nat, (msgs[i]?).map ChatMsg.role = (s.messages[i]?).map ChatMsg.role)
      ∧ (∀ i : Nat, (msgs[i]?).map ChatMsg.content = (s.messages[i]?).map ChatMsg.content)
      ∧ ∀ m ∈ msgs, m.audioPath = none := by
  refine ⟨s.messages.map stripAudioPath, ?_, ?_, ?_, ?_, ?_⟩
  · simp [getSessionHistory, getSessionHistoryBody, wrap500, h]
  · simp
  · intro i
    simp only [List.getElem?_map, Option.map_map]
    rfl
  · intro i
    simp only [List.getElem?_map, Option.map_map]
    rfl
  · intro m hm
    rcases List.mem_map.mp hm with ⟨m0, _, rfl⟩
    rfl

/-- Witness for C10: history of the concrete session `"s1"`, whose two
stored messages both carry audio paths. -/
theorem C10_history_strips_audio_witness :
    alookup "s1" world0.sessions = some sess0
    ∧ ∃ msgs : List ChatMsg,
        getSessionHistory world0 "s1" = Except.ok (world0, msgs)
        ∧ msgs.length = sess0.messages.length
        ∧ (∀ i : Nat, (msgs[i]?).map ChatMsg.role = (sess0.messages[i]?).map ChatMsg.role)
        ∧ (∀ i : Nat,
            (msgs[i]?).map ChatMsg.content = (sess0.messages[i]?).map ChatMsg.content)
        ∧ ∀ m ∈ msgs, m.audioPath = none :=
  ⟨by decide, C10_history_strips_audio world0 "s1" sess0 (by decide)⟩

/-- A cancelled state passes every loop iteration unchanged (the guard
`if chunk and session.is_processing` fails). -/
theorem mstep_cancelled {W : Type} (synth : List Char → List W) (st : MState W)
    (d : List Char) (h : st.isProcessing = false) : mstep synth st d = st := by
  simp [mstep, h]

/-- A cancelled state passes the whole remaining loop unchanged. -/
theorem runSeg_cancelled {W : Type} (synth : List Char → List W) (st : MState W)
    (h : st.isProcessing = false) : ∀ ds, runSeg synth st ds = st := by
  intro ds
  induction ds with
  | nil => rfl
  | cons d ds ih =>
    show (d :: ds).foldl (mstep synth) st = st
    rw [List.foldl_cons, mstep_cancelled synth st d h]
    exact ih

/-- A cancelled state passes the end-of-stream flush unchanged. -/
theorem mflush_cancelled {W : Type} (synth : List Char → List W) (st : MState W)
    (h : st.isProcessing = false) : mflush synth st = st := by
  simp [mflush, h]

/-- C5: whenever `stop_session` arrives after `k` loop iterations of a
run, the finished run's enqueued chunk list and accumulated waveform are
EXACTLY those of the state at the moment of cancellation — no chunk beyond
the in-flight unit's is ever enqueued, the processing flag ends (and
stays) false, and completing the run still returns the waveform
accumulated up to cancellation (`None` when nothing had been
synthesized yet). -/
theorem C5_cancel_cooperative {W : Type} (synth : List Char → List W)
    (deltas : List (List Char)) (k : Nat) :
    (runWithCancel synth deltas k).1.audioChunks
        = (cancelRun (runSeg synth (initMState W) (deltas.take k))).audioChunks
    ∧ (runWithCancel synth deltas k).1.allAudio
        = (cancelRun (runSeg synth (initMState W) (deltas.take k))).allAudio
    ∧ (runWithCancel synth deltas k).1.isProcessing = false
    ∧ (runWithCancel synth deltas k).2
        = saveCompleteAudio (cancelRun (runSeg synth (initMState W) (deltas.take k))) := by
  have h2 : (cancelRun (runSeg synth (initMState W) (deltas.take k))).isProcessing = false :=
    rfl
  have h3 : runSeg synth (cancelRun (runSeg synth (initMState W) (deltas.take k)))
        (deltas.drop k)
      = cancelRun (runSeg synth (initMState W) (deltas.take k)) :=
    runSeg_cancelled synth _ h2 _
  have h4 : mflush synth (cancelRun (runSeg synth (initMState W) (deltas.take k)))
      = cancelRun (runSeg synth (initMState W) (deltas.take k)) :=
    mflush_cancelled synth _ h2
  refine ⟨?_, ?_, ?_, ?_⟩ <;> simp [runWithCancel, h3, h4]

/-- Unknown keys stay unknown under any key-dropping filter of the store. -/
theorem alookup_filter_none {β : Type} (sid : String) (q : String × β → Bool) :
    ∀ l : List (String × β), alookup sid l = none → alookup sid (l.filter q) = none := by
  intro l
  induction l with
  | nil => intro _; rfl
  | cons p ps ih =>
    intro h
    simp only [alookup] at h
    by_cases hp : p.1 = sid
    · rw [if_pos hp] at h; exact absurd h (by simp)
    · rw [if_neg hp] at h
      cases hq : q p with
      | true => simp [List.filter_cons, hq, alookup, hp, ih h]
      | false => simp [List.filter_cons, hq, ih h]

/-- Dropping every binding of `sid` makes `sid` unknown. -/
theorem alookup_filter_self {β : Type} (sid : String) :
    ∀ l : List (String × β), alookup sid (l.filter (fun p => !(p.1 == sid))) = none := by
  intro l
  induction l with
  | nil => rfl
  | cons p ps ih =>
    by_cases hp : p.1 = sid
    · simp [List.filter_cons, hp, ih]
    · simp [List.filter_cons, hp, alookup, ih]

/-- Dropping the bindings of a DIFFERENT key does not change a lookup. -/
theorem alookup_filter_other {β : Type} (sid x : String) (hx : x ≠ sid) :
    ∀ l : List (String × β),
      alookup sid (l.filter (fun p => !(p.1 == x))) = alookup sid l := by
  intro l
  induction l with
  | nil => rfl
  | cons p ps ih =>
    by_cases hp : p.1 = x
    · have hps : ¬ p.1 = sid := by rw [hp]; exact fun hc => hx hc
      simp [List.filter_cons, hp, alookup, hps, ih, hx]
    · simp [List.filter_cons, hp, alookup, ih]

/-- Deleting a bound session makes it unknown and purges its files. -/
theorem deleteSession_self (st : SMState) (sid : String)
    (h : (alookup sid st.sessions).isSome = true) :
    alookup sid (deleteSession st sid).sessions = none
    ∧ ∀ f ∈ (deleteSession st sid).files, containsSub sid.toList f = false := by
  constructor
  · simp only [deleteSession, h, if_true]
    exact alookup_filter_self sid st.sessions
  · intro f hf
    simp only [deleteSession, h, if_true] at hf
    have := List.of_mem_filter hf
    simpa using this

/-- Deleting any session preserves the absence of an absent key. -/
theorem deleteSession_preserves_none (st : SMState) (x sid : String)
    (h : alookup sid st.sessions = none) :
    alookup sid (deleteSession st x).sessions = none := by
  cases hx : (alookup x st.sessions).isSome with
  | true =>
    simp only [deleteSession, hx, if_true]
    exact alookup_filter_none sid _ st.sessions h
  | false => simpa [deleteSession, hx] using h

/-- Deleting a session never adds files. -/
theorem deleteSession_files_mem (st : SMState) (x : String) (f : List Char)
    (hf : f ∈ (deleteSession st x).files) : f ∈ st.files := by
  cases hx : (alookup x st.sessions).isSome with
  | true =>
    simp only [deleteSession, hx, if_true] at hf
    exact List.mem_of_mem_filter hf
  | false => simpa [deleteSession, hx] using hf

/-- Deleting a different session does not change a lookup. -/
theorem deleteSession_other_keeps (st : SMState) (x sid : String) (hx : x ≠ sid) :
    alookup sid (deleteSession st x).sessions = alookup sid st.sessions := by
  cases hcond : (alookup x st.sessions).isSome with
  | true =>
    simp only [deleteSession, hcond, if_true]
    exact alookup_filter_other sid x hx st.sessions
  | false => simp [deleteSession, hcond]

/-- Once a session is gone (store and files), further deletions keep it
gone. -/
theorem foldl_delete_preserves (xs : List String) :
    ∀ (st : SMState) (sid : String),
      alookup sid st.sessions = none →
      (∀ f ∈ st.files, containsSub sid.toList f = false) →
      alookup sid (xs.foldl deleteSession st).sessions = none
      ∧ ∀ f ∈ (xs.foldl deleteSession st).files, containsSub sid.toList f = false := by
  induction xs with
  | nil => intro st sid h1 h2; exact ⟨h1, h2⟩
  | cons x xs ih =>
    intro st sid h1 h2
    simp only [List.foldl_cons]
    exact ih (deleteSession st x) sid (deleteSession_preserves_none st x sid h1)
      (fun f hf => h2 f (deleteSession_files_mem st x f hf))

/-- Folding deletion over a list containing a bound session id removes
that session and purges its files. -/
theorem foldl_delete_member (xs : List String) :
    ∀ (st : SMState) (sid : String),
      sid ∈ xs →
      (alookup sid st.sessions).isSome = true →
      alookup sid (xs.foldl deleteSession st).sessions = none
      ∧ ∀ f ∈ (xs.foldl deleteSession st).files, containsSub sid.toList f = false := by
  induction xs with
  | nil => intro st sid h _; exact absurd h (List.not_mem_nil sid)
  | cons x xs ih =>
    intro st sid hmem hsome
    simp only [List.foldl_cons]
    by_cases hx : x = sid
    · subst hx
      obtain ⟨ha, hb⟩ := deleteSession_self st x hsome
      exact foldl_delete_preserves xs (deleteSession st x) x ha hb
    · have hmem2 : sid ∈ xs := by
        rcases List.mem_cons.mp hmem with h | h
        · exact absurd h.symm hx
        · exact h
      have hsome2 : (alookup sid (deleteSession st x).sessions).isSome = true := by
        rw [deleteSession_other_keeps st x sid hx]
        exact hsome
      exact ih (deleteSession st x) sid hmem2 hsome2

/-- A successful lookup exhibits a member of the store. -/
theorem alookup_mem {β : Type} (sid : String) (d : β) :
    ∀ l : List (String × β), alookup sid l = some d → (sid, d) ∈ l := by
  intro l
  induction l with
  | nil => intro h; cases h
  | cons p ps ih =>
    intro h
    simp only [alookup] at h
    by_cases hp : p.1 = sid
    · rw [if_pos hp] at h
      have hd : p.2 = d := Option.some.inj h
      have hpd : p = (sid, d) := by
        cases p
        simp only [Prod.mk.injEq]
        exact ⟨hp, hd⟩
      rw [← hpd]
      exact List.mem_cons_self _ _
    · rw [if_neg hp] at h
      exact List.mem_cons_of_mem _ (ih h)

/-- A bound session whose idle time exceeds the window is collected by the
sweep. -/
theorem mem_expiredIds (st : SMState) (now : Nat) (sid : String) (d : SessData)
    (h : alookup sid st.sessions = some d) (hexp : st.expiry < now - d.lastActivity) :
    sid ∈ expiredIds st now := by
  have hm : (sid, d) ∈ st.sessions := alookup_mem sid d st.sessions h
  have hf : (sid, d) ∈ st.sessions.filter
      (fun p => decide (st.expiry < now - p.2.lastActivity)) :=
    List.mem_filter.mpr ⟨hm, by simpa using hexp⟩
  simpa [expiredIds] using List.mem_map_of_mem Prod.fst hf

/-- C8: a session whose last activity lies more than the expiry window
before the current time is removed by the sweep — afterwards it is absent
from the store and no remaining temp file name contains its id — and a
subsequent `get_session` lookup therefore finds it absent and hands back a
freshly created record stamped with the current time instead of any stale
state. -/
theorem C8_expired_session_removed (st : SMState) (now : Nat) (sid : String) (d : SessData)
    (h : alookup sid st.sessions = some d)
    (hexp : st.expiry < now - d.lastActivity) :
    alookup sid (cleanupExpiredSessions st now).sessions = none
    ∧ (∀ f ∈ (cleanupExpiredSessions st now).files, containsSub sid.toList f = false)
    ∧ (getSession st now sid).2 = { createdAt := now, lastActivity := now } := by
  have hmem := mem_expiredIds st now sid d h hexp
  have hsome : (alookup sid st.sessions).isSome = true := by rw [h]; rfl
  obtain ⟨h1, h2⟩ := foldl_delete_member (expiredIds st now) st sid hmem hsome
  refine ⟨h1, h2, ?_⟩
  simp only [getSession, cleanupExpiredSessions, h1, createSession]

/-- Witness for C8: the concrete manager state, session `"s1"` idle for
100 seconds against a 10-second window. -/
theorem C8_expired_session_removed_witness :
    alookup "s1" smw.sessions = some { createdAt := 0, lastActivity := 0 }
    ∧ smw.expiry < 100 - (0 : Nat)
    ∧ (alookup "s1" (cleanupExpiredSessions smw 100).sessions = none
       ∧ (∀ f ∈ (cleanupExpiredSessions smw 100).files,
            containsSub "s1".toList f = false)
       ∧ (getSession smw 100 "s1").2 = { createdAt := 100, lastActivity := 100 }) :=
  ⟨by decide, by decide,
    C8_expired_session_removed smw 100 "s1" { createdAt := 0, lastActivity := 0 }
      (by decide) (by decide)⟩
